import Mathlib

/-!
Shallow embedding of `src/main.rs` of the road-network-json repository.

The program converts a GML city-object catalog into per-feature GeoJSON
files.  Its core is two event loops over the token stream of a quick_xml
reader:

* `parse_gml_file` (lines 69-169): the segmenter, which tracks nesting depth
  and reconstructs each `*:GenericCityObject` element as a fragment string,
  then hands it to the extractor and writes one JSON file per feature that
  carries the configured identifier property;
* `parse_city_object` (lines 171-299): the extractor, which walks one
  fragment's events, harvests `*:stringAttribute` / `*:intAttribute` /
  `*:doubleAttribute` properties and `*:posList` coordinates, and projects
  the coordinate pairs.

External dependencies are abstracted at their call boundary, never inside
this repository's logic:

* the quick_xml tokenizer is abstracted as a `List XmlEvent` (for the outer
  document) and as a `tokenize : String → List XmlEvent` oracle (for the
  fragment re-parse);
* `str::parse::<f64>` is a `parseF64 : String → Option F` parameter over an
  abstract coordinate scalar `F` (no claim depends on the f64 grammar);
* the proj4rs HK80→WGS84 transform is a `transform : F → F → Option (F × F)`
  parameter (`none` models `transform(..).is_err()`); the two projection
  definitions are fixed constant strings in the source, and their successful
  construction (line 256) is assumed, since a construction failure is
  observationally identical to a transform that always fails;
* `str::parse::<i64>` is modelled concretely (`parseI64`), since its grammar
  is simple and exact: optional sign, one or more ASCII digits, i64 range;
* `std::collections::HashMap` is modelled as an association list with
  replace-on-insert semantics; its iteration order (used only when
  serializing `properties`) is unspecified in Rust, and is therefore an
  explicit oracle `hashOrder` in the model.
-/

namespace RoadNetwork

/-- Character-level model of Rust `str::ends_with`, which `src/main.rs` uses
for all element-kind recognition (`name.ends_with(":GenericCityObject")`
and friends). -/
def strEndsWith (s t : String) : Bool :=
  t.data.isSuffixOf s.data

/-- Recognition of the segmenter's target element (src/main.rs line 91). -/
def isCityObjectName (name : String) : Bool :=
  strEndsWith name ":GenericCityObject"

/-- Recognition of string attributes (src/main.rs lines 191, 229). -/
def isStringAttrName (name : String) : Bool :=
  strEndsWith name ":stringAttribute"

/-- Recognition of integer attributes (src/main.rs lines 201, 233). -/
def isIntAttrName (name : String) : Bool :=
  strEndsWith name ":intAttribute"

/-- Recognition of double attributes (src/main.rs lines 211, 239). -/
def isDoubleAttrName (name : String) : Bool :=
  strEndsWith name ":doubleAttribute"

/-- Recognition of position lists (src/main.rs lines 221, 245). -/
def isPosListName (name : String) : Bool :=
  strEndsWith name ":posList"

/-- Events of the quick_xml reader as consumed by the two loops in
src/main.rs.  `err` stands for `Err(_)` from `read_event_into` (both loops
`break` on it), `empty` is `Event::Empty` (a self-closing tag, which both
loops ignore via their catch-all arm), and `text` carries the already
unescaped text of `e.unescape().unwrap_or_default()`. -/
inductive XmlEvent where
  | start (name : String) (attrs : List (String × String))
  | endEl (name : String)
  | text (s : String)
  | empty (name : String) (attrs : List (String × String))
  | eof
  | err
deriving DecidableEq, Repr

/-- The `PropertyValue` enum of src/main.rs lines 25-32, with the
floating-point payload over the abstract scalar `F`. -/
inductive PropertyValue (F : Type) where
  | String (s : String)
  | Int (i : Int)
  | Float (f : F)
  | Null
deriving DecidableEq, Repr

/-- The `Geometry` struct of src/main.rs lines 18-23. -/
structure Geometry (F : Type) where
  geometry_type : String
  coordinates : List (List F)
deriving DecidableEq, Repr

/-- The `GeoJsonFeature` struct of src/main.rs lines 10-16.  `properties`
models the `HashMap<String, PropertyValue>`: an association list with
replace-on-insert semantics (`insertProp` / `getProp`); binding order is
internal and never observed except through the `hashOrder` oracle at
serialization time. -/
structure GeoJsonFeature (F : Type) where
  feature_type : String
  geometry : Geometry F
  properties : List (String × PropertyValue F)
deriving DecidableEq, Repr

/-- Model of `HashMap::insert`: the new binding replaces any existing binding
of the same key. -/
def insertProp {F : Type} (props : List (String × PropertyValue F)) (k : String)
    (v : PropertyValue F) : List (String × PropertyValue F) :=
  (k, v) :: props.filter (fun p => !decide (p.1 = k))

/-- Model of `HashMap::get`. -/
def getProp {F : Type} (props : List (String × PropertyValue F)) (k : String) :
    Option (PropertyValue F) :=
  (props.find? (fun p => decide (p.1 = k))).map Prod.snd

/-- The attribute scan of src/main.rs lines 193-200 (and its twins at 203-210
and 213-220): every attribute literally keyed `name` overwrites
`current_attr_name`; when no such attribute exists the previous value is
kept. -/
def findNameAttr (attrs : List (String × String)) (current : String) : String :=
  attrs.foldl (fun acc kv => if kv.1 = "name" then kv.2 else acc) current

/-- Digit accumulation for `parseI64`. -/
def digitsToNat (ds : List Char) : Nat :=
  ds.foldl (fun acc c => acc * 10 + (c.toNat - 48)) 0

/-- Model of Rust `str::parse::<i64>` (src/main.rs line 234): an optional
sign followed by one or more ASCII digits and nothing else; the value must
fit the i64 range, otherwise the parse fails. -/
def parseI64 (s : String) : Option Int :=
  match s.data with
  | '+' :: rest =>
    if rest ≠ [] ∧ rest.all Char.isDigit then
      if ((digitsToNat rest : Int) ≤ 2 ^ 63 - 1) then some (digitsToNat rest) else none
    else none
  | '-' :: rest =>
    if rest ≠ [] ∧ rest.all Char.isDigit then
      if ((digitsToNat rest : Int) ≤ 2 ^ 63) then some (-(digitsToNat rest : Int)) else none
    else none
  | l =>
    if l ≠ [] ∧ l.all Char.isDigit then
      if ((digitsToNat l : Int) ≤ 2 ^ 63 - 1) then some (digitsToNat l) else none
    else none

/-- Token accumulator for `splitWhitespace`: `cur` holds the characters of
the current token in reverse. -/
def wsTokens : List Char → List Char → List String
  | [], cur => if cur.isEmpty then [] else [String.mk cur.reverse]
  | c :: cs, cur =>
    if c.isWhitespace then
      if cur.isEmpty then wsTokens cs [] else String.mk cur.reverse :: wsTokens cs []
    else wsTokens cs (c :: cur)

/-- Model of Rust `str::split_whitespace` (src/main.rs line 248): maximal
runs of non-whitespace characters, in order; no empty tokens. -/
def splitWhitespace (s : String) : List String :=
  wsTokens s.data []

/-- Model of `slice::chunks(2)` (src/main.rs line 260): consecutive chunks of
size 2, the last one possibly of size 1. -/
def chunksTwo {α : Type} : List α → List (List α)
  | [] => []
  | [a] => [[a]]
  | a :: b :: rest => [a, b] :: chunksTwo rest

/-- The chunks the loop body actually submits to the projection transform:
exactly the chunks of length 2 (the `chunk.len() == 2` guard of src/main.rs
line 261). -/
def pairChunks {α : Type} (l : List α) : List (List α) :=
  (chunksTwo l).filter (fun c => c.length == 2)

/-- The flat numeric token list of a posList (src/main.rs lines 247-250):
split on whitespace, then keep the tokens that parse as numbers, in order. -/
def posTokens {F : Type} (parseF64 : String → Option F) (s : String) : List F :=
  (splitWhitespace s).filterMap parseF64

/-- One chunk through the transform (src/main.rs lines 261-267): a length-2
chunk `[x, y]` becomes `[lon, lat]` when `transform` succeeds, nothing
otherwise.  The Rust code passes `(x, y, 0.0)` and keeps only the two
horizontal components of the result; the elevation is folded into
`transform`. -/
def transformChunk {F : Type} (transform : F → F → Option (F × F)) (c : List F) :
    Option (List F) :=
  match c with
  | [x, y] => (transform x y).map (fun q => [q.1, q.2])
  | _ => none

/-- The coordinates contributed by one posList inner text (src/main.rs lines
245-270): tokenize, filter to numbers, pair into 2-chunks, transform each
full chunk, and keep the successes in order. -/
def posListCoords {F : Type} (parseF64 : String → Option F)
    (transform : F → F → Option (F × F)) (s : String) : List (List F) :=
  (pairChunks (posTokens parseF64 s)).filterMap (transformChunk transform)

/-- Provenance predicate used by the coordinate invariant: the pair `c` is
the successful transform of one full chunk of some position list's numeric
token list. -/
def coordFrom {F : Type} (P : String → Option F) (T : F → F → Option (F × F))
    (c : List F) : Prop :=
  ∃ str x y p q, [x, y] ∈ pairChunks (posTokens P str) ∧ T x y = some (p, q) ∧ c = [p, q]

/-- The mutable locals of the extractor loop (src/main.rs lines 172-184). -/
structure ExtractState (F : Type) where
  properties : List (String × PropertyValue F)
  coordinates : List (List F)
  in_string_attr : Bool
  in_int_attr : Bool
  in_double_attr : Bool
  in_pos_list : Bool
  current_attr_name : String
  current_value : String
deriving DecidableEq, Repr

/-- Initial extractor state (src/main.rs lines 172-184). -/
def initExtractState {F : Type} : ExtractState F :=
  ⟨[], [], false, false, false, false, "", ""⟩

/-- One iteration of the extractor loop body (src/main.rs lines 186-289).
The dispatch order of the `if`/`else if` chains is preserved exactly; the
final `else` of the End arm also covers the explicit `*:value` no-op branch
of line 274. -/
def extractStep {F : Type} (parseF64 : String → Option F)
    (transform : F → F → Option (F × F)) (s : ExtractState F) (ev : XmlEvent) :
    ExtractState F :=
  match ev with
  | .start name attrs =>
    if isStringAttrName name then
      { s with in_string_attr := true,
               current_attr_name := findNameAttr attrs s.current_attr_name }
    else if isIntAttrName name then
      { s with in_int_attr := true,
               current_attr_name := findNameAttr attrs s.current_attr_name }
    else if isDoubleAttrName name then
      { s with in_double_attr := true,
               current_attr_name := findNameAttr attrs s.current_attr_name }
    else if isPosListName name then
      { s with in_pos_list := true, current_value := "" }
    else s
  | .endEl name =>
    if isStringAttrName name then
      { s with properties :=
                 insertProp s.properties s.current_attr_name
                   (PropertyValue.String s.current_value),
               in_string_attr := false, current_value := "" }
    else if isIntAttrName name then
      match parseI64 s.current_value with
      | some v =>
        { s with properties :=
                   insertProp s.properties s.current_attr_name (PropertyValue.Int v),
                 in_int_attr := false, current_value := "" }
      | none => { s with in_int_attr := false, current_value := "" }
    else if isDoubleAttrName name then
      match parseF64 s.current_value with
      | some v =>
        { s with properties :=
                   insertProp s.properties s.current_attr_name (PropertyValue.Float v),
                 in_double_attr := false, current_value := "" }
      | none => { s with in_double_attr := false, current_value := "" }
    else if isPosListName name then
      { s with coordinates :=
                 s.coordinates ++ posListCoords parseF64 transform s.current_value,
               in_pos_list := false, current_value := "" }
    else s
  | .text t =>
    if s.in_string_attr || s.in_int_attr || s.in_double_attr || s.in_pos_list then
      { s with current_value := s.current_value ++ t }
    else s
  | .empty _ _ => s
  | .eof => s
  | .err => s

/-- The extractor loop driver: `break` on `Eof` and on `Err(_)`
(src/main.rs lines 284-285). -/
def extractRun {F : Type} (parseF64 : String → Option F)
    (transform : F → F → Option (F × F)) :
    ExtractState F → List XmlEvent → ExtractState F
  | s, [] => s
  | s, .eof :: _ => s
  | s, .err :: _ => s
  | s, .start name attrs :: rest =>
    extractRun parseF64 transform (extractStep parseF64 transform s (.start name attrs)) rest
  | s, .endEl name :: rest =>
    extractRun parseF64 transform (extractStep parseF64 transform s (.endEl name)) rest
  | s, .text t :: rest =>
    extractRun parseF64 transform (extractStep parseF64 transform s (.text t)) rest
  | s, .empty name attrs :: rest =>
    extractRun parseF64 transform (extractStep parseF64 transform s (.empty name attrs)) rest

/-- The feature assembled at src/main.rs lines 291-298. -/
def extractFeature {F : Type} (parseF64 : String → Option F)
    (transform : F → F → Option (F × F)) (events : List XmlEvent) :
    GeoJsonFeature F :=
  let s := extractRun parseF64 transform initExtractState events
  { feature_type := "Feature",
    geometry := { geometry_type := "LineString", coordinates := s.coordinates },
    properties := s.properties }

/-- The extractor `parse_city_object` (src/main.rs lines 171-299).  Its Rust
signature is `Result<GeoJsonFeature>`; every control path ends at the single
`Ok(...)` return.  The `id_field` argument is accepted and unused, as in the
source (`_id_field`). -/
def parse_city_object {F : Type} (parseF64 : String → Option F)
    (transform : F → F → Option (F × F)) (events : List XmlEvent)
    (_id_field : String) : Except String (GeoJsonFeature F) :=
  Except.ok (extractFeature parseF64 transform events)

/-- Identifier-string derivation of src/main.rs lines 130-134. -/
def idString {F : Type} (id : PropertyValue F) (count : Nat) : String :=
  match id with
  | .String s => s
  | .Int i => toString i
  | _ => "object_" ++ toString count

/-- Reconstructed start tag (src/main.rs lines 95-105 and 108-118): the name
and every attribute, values written verbatim. -/
def startTagString (name : String) (attrs : List (String × String)) : String :=
  "<" ++ name ++ String.join (attrs.map (fun kv => " " ++ kv.1 ++ "=\"" ++ kv.2 ++ "\"")) ++ ">"

/-- Reconstructed end tag (src/main.rs line 124). -/
def endTagString (name : String) : String :=
  "</" ++ name ++ ">"

/-- JSON string escaping as applied by serde_json (restricted to the escapes
our strings can need). -/
def jsonEscape (s : String) : String :=
  String.join (s.data.map (fun c =>
    if c = '"' then "\\\"" else if c = '\\' then "\\\\" else String.singleton c))

/-- Serialization of one `PropertyValue` under serde's untagged
representation; the floating-point rendering is the `showF` parameter. -/
def propValueJson {F : Type} (showF : F → String) : PropertyValue F → String
  | .String s => "\"" ++ jsonEscape s ++ "\""
  | .Int i => toString i
  | .Float f => showF f
  | .Null => "null"

/-- Serialization of the `properties` object by `serde_json::to_string_pretty`
(two-space indentation, at nesting depth 1).  The entry order is whatever
iteration order the `HashMap` presents, which is the `props` argument
here. -/
def propsJson {F : Type} (showF : F → String)
    (props : List (String × PropertyValue F)) : String :=
  if props.isEmpty then "\x7b\x7d"
  else
    "\x7b\n"
      ++ String.intercalate ",\n"
          (props.map (fun p => "    \"" ++ jsonEscape p.1 ++ "\": " ++ propValueJson showF p.2))
      ++ "\n  \x7d"

/-- Pretty serialization of one coordinate pair (nesting depth 3). -/
def coordPairJson {F : Type} (showF : F → String) (c : List F) : String :=
  if c.isEmpty then "[]"
  else "[\n" ++ String.intercalate ",\n" (c.map (fun x => "        " ++ showF x)) ++ "\n      ]"

/-- Pretty serialization of the coordinates array (nesting depth 2). -/
def coordinatesJson {F : Type} (showF : F → String) (cs : List (List F)) : String :=
  if cs.isEmpty then "[]"
  else "[\n" ++ String.intercalate ",\n" (cs.map (fun c => "      " ++ coordPairJson showF c)) ++ "\n    ]"

/-- Model of `serde_json::to_string_pretty(&feature)` (src/main.rs line 137):
struct fields in declaration order, two-space indentation, and the
`properties` entries in the hash map's iteration order `orderedProps`. -/
def featureJson {F : Type} (showF : F → String)
    (orderedProps : List (String × PropertyValue F)) (f : GeoJsonFeature F) : String :=
  "\x7b\n  \"type\": \"" ++ jsonEscape f.feature_type
    ++ "\",\n  \"geometry\": \x7b\n    \"type\": \"" ++ jsonEscape f.geometry.geometry_type
    ++ "\",\n    \"coordinates\": " ++ coordinatesJson showF f.geometry.coordinates
    ++ "\n  \x7d,\n  \"properties\": " ++ propsJson showF orderedProps ++ "\n\x7d"

/-- The mutable locals of the segmenter loop (src/main.rs lines 81-85), plus
the list of `(path, bytes)` file writes the loop performs. -/
structure SegState where
  in_city_object : Bool
  current_object : String
  object_depth : Int
  count : Nat
  written : List (String × String)
deriving DecidableEq, Repr

/-- Initial segmenter state (src/main.rs lines 81-85). -/
def initSegState : SegState :=
  ⟨false, "", 0, 0, []⟩

/-- The fixed context of one `parse_gml_file` call: the abstracted external
dependencies plus the `id_field` / `output_subdir` arguments.  `tokenize` is
the quick_xml re-parse of a fragment string; `hashOrder` is the iteration
order std's `HashMap` happens to present at serialization time (unspecified
by Rust, hence an oracle). -/
structure SegCtx (F : Type) where
  parseF64 : String → Option F
  transform : F → F → Option (F × F)
  tokenize : String → List XmlEvent
  showF : F → String
  hashOrder : List (String × PropertyValue F) → List (String × PropertyValue F)
  id_field : String
  output_subdir : String

/-- Feature emission at fragment completion (src/main.rs lines 126-146):
parse the fragment, look up the identifier field, derive the file name,
serialize, record the write, and bump the counter; a feature without the
identifier field is dropped with no write and no count change. -/
def emitFragment {F : Type} (ctx : SegCtx F) (s : SegState) (frag : String) :
    SegState :=
  match parse_city_object ctx.parseF64 ctx.transform (ctx.tokenize frag) ctx.id_field with
  | Except.ok feature =>
    match getProp feature.properties ctx.id_field with
    | some id =>
      let id_str := idString id s.count
      let path := "./output/" ++ ctx.output_subdir ++ "/" ++ id_str ++ ".json"
      let body := featureJson ctx.showF (ctx.hashOrder feature.properties) feature
      { s with written := s.written ++ [(path, body)], count := s.count + 1 }
    | none => s
  | Except.error _ => s

/-- One iteration of the segmenter loop body (src/main.rs lines 87-163).
Note that the first branch of the Start arm tests only the element name, not
`in_city_object`: a matching start tag unconditionally sets the depth to 1
and resets the accumulator to the reconstructed start tag (lines 91-105). -/
def segStep {F : Type} (ctx : SegCtx F) (s : SegState) (ev : XmlEvent) :
    SegState :=
  match ev with
  | .start name attrs =>
    if isCityObjectName name then
      { s with in_city_object := true, object_depth := 1,
               current_object := startTagString name attrs }
    else if s.in_city_object then
      { s with object_depth := s.object_depth + 1,
               current_object := s.current_object ++ startTagString name attrs }
    else s
  | .endEl name =>
    if s.in_city_object then
      if s.object_depth - 1 = 0 then
        let s1 := emitFragment ctx
          { s with current_object := s.current_object ++ endTagString name,
                   object_depth := s.object_depth - 1 }
          (s.current_object ++ endTagString name)
        { s1 with in_city_object := false }
      else
        { s with current_object := s.current_object ++ endTagString name,
                 object_depth := s.object_depth - 1 }
    else s
  | .text t =>
    if s.in_city_object then { s with current_object := s.current_object ++ t } else s
  | .empty _ _ => s
  | .eof => s
  | .err => s

/-- The segmenter loop driver: `break` on `Eof` and on `Err(e)` (the latter
after logging, src/main.rs lines 157-161). -/
def segRun {F : Type} (ctx : SegCtx F) : SegState → List XmlEvent → SegState
  | s, [] => s
  | s, .eof :: _ => s
  | s, .err :: _ => s
  | s, .start name attrs :: rest => segRun ctx (segStep ctx s (.start name attrs)) rest
  | s, .endEl name :: rest => segRun ctx (segStep ctx s (.endEl name)) rest
  | s, .text t :: rest => segRun ctx (segStep ctx s (.text t)) rest
  | s, .empty name attrs :: rest => segRun ctx (segStep ctx s (.empty name attrs)) rest

/-- The first-pass driver `parse_gml_file` (src/main.rs lines 69-169),
returning the file writes it performed; the function always reaches its
final `Ok(())` once filesystem effects are abstracted. -/
def parse_gml_file {F : Type} (ctx : SegCtx F) (events : List XmlEvent) :
    Except String (List (String × String)) :=
  Except.ok (segRun ctx initSegState events).written

/-! Concrete instantiations of the abstracted externals, used to evaluate the
model on explicit inputs.  The coordinate scalar is `Int`, the numeric parser
is the integer parser, and the transform is total (it never fails), so every
full pair survives projection. -/

/-- Concrete numeric parser over the `Int` scalar. -/
def numParse : String → Option Int := parseI64

/-- Concrete transform that always succeeds and returns the pair itself. -/
def idTransform : Int → Int → Option (Int × Int) :=
  fun x y => some (x, y)

/-- Concrete transform that succeeds exactly on pairs with positive first
component. -/
def posTransform : Int → Int → Option (Int × Int) :=
  fun x y => if 0 < x then some (x, y) else none

/-- A fragment event stream whose XML is truncated: one complete string
attribute, then the tokenizer fails. -/
def truncatedFragment : List XmlEvent :=
  [.start "gen:stringAttribute" [("name", "ROUTE_ID")], .text "R1",
   .endEl "gen:stringAttribute", .err]

/-- A fragment in which a string attribute and an int attribute share the
name `A`, and the int attribute's inner text does not parse. -/
def dupKeyFragment : List XmlEvent :=
  [.start "gen:stringAttribute" [("name", "A")], .text "x",
   .endEl "gen:stringAttribute",
   .start "gen:intAttribute" [("name", "A")], .text "oops",
   .endEl "gen:intAttribute", .eof]

/-- A well-formed fragment with two string attributes (`ROUTE_ID` and
`NAME`). -/
def twoPropFragment : List XmlEvent :=
  [.start "gen:stringAttribute" [("name", "ROUTE_ID")], .text "R1",
   .endEl "gen:stringAttribute",
   .start "gen:stringAttribute" [("name", "NAME")], .text "Main",
   .endEl "gen:stringAttribute", .eof]

/-- An outer document with exactly one (unnested) target object. -/
def outerDoc : List XmlEvent :=
  [.start "gen:GenericCityObject" [], .endEl "gen:GenericCityObject", .eof]

/-- An outer document whose target object contains a nested element of the
same (suffix-matching) name. -/
def nestedDoc : List XmlEvent :=
  [.start "gen:GenericCityObject" [], .start "gen:GenericCityObject" [],
   .endEl "gen:GenericCityObject", .endEl "gen:GenericCityObject", .eof]

/-- A concrete context whose fragment tokenizer yields no events. -/
def ctx0 : SegCtx Int :=
  { parseF64 := numParse, transform := idTransform, tokenize := fun _ => [],
    showF := toString, hashOrder := id, id_field := "ROUTE_ID",
    output_subdir := "centerlines" }

/-- A concrete context whose fragment tokenizer yields `twoPropFragment`,
with the identity iteration order. -/
def ctxA : SegCtx Int :=
  { ctx0 with tokenize := fun _ => twoPropFragment }

/-- Same as `ctxA` but with the reversed iteration order: both orders are
permutations of the property bindings, as the unspecified `HashMap`
iteration order always is. -/
def ctxB : SegCtx Int :=
  { ctxA with hashOrder := List.reverse }

/-- A concrete context whose fragment tokenizer yields
`truncatedFragment`. -/
def ctxC : SegCtx Int :=
  { ctx0 with tokenize := fun _ => truncatedFragment }

/-- A segmenter state in the middle of a capture. -/
def segS0 : SegState :=
  { initSegState with in_city_object := true, object_depth := 1,
                      current_object := "<gen:GenericCityObject>" }

/-- An extractor state as it stands just before the closing tag of an int
attribute named `A` whose inner text was `12`. -/
def st0 : ExtractState Int :=
  { initExtractState with in_int_attr := true, current_attr_name := "A",
                          current_value := "12" }

/-- An extractor state as it stands just before the closing tag of a double
attribute named `D` whose inner text was `7`. -/
def st1 : ExtractState Int :=
  { initExtractState with in_double_attr := true, current_attr_name := "D",
                          current_value := "7" }

/-- Agreement of two segmenter states on everything except the bodies of the
recorded writes: same capture flag, accumulator, depth, counter, and file
paths in the same order. -/
def SegAgree (s1 s2 : SegState) : Prop :=
  s1.in_city_object = s2.in_city_object ∧ s1.current_object = s2.current_object
    ∧ s1.object_depth = s2.object_depth ∧ s1.count = s2.count
    ∧ s1.written.map Prod.fst = s2.written.map Prod.fst

/-! Helper lemmas. -/

/-- Induction principle matching the recursion pattern of `chunksTwo`. -/
theorem twoStepInduction {α : Type} {motive : List α → Prop} (h0 : motive [])
    (h1 : ∀ a, motive [a]) (h2 : ∀ a b l, motive l → motive (a :: b :: l)) :
    ∀ l, motive l
  | [] => h0
  | [a] => h1 a
  | a :: b :: l => h2 a b l (twoStepInduction h0 h1 h2 l)

/-- Unfolding equation: a full chunk is kept. -/
theorem pairChunks_cons2 {α : Type} (a b : α) (l : List α) :
    pairChunks (a :: b :: l) = [a, b] :: pairChunks l := rfl

/-- Unfolding equation: a trailing odd chunk is dropped by the
`chunk.len() == 2` guard. -/
theorem pairChunks_single {α : Type} (a : α) : pairChunks [a] = [] := rfl

/-- The length-2 chunks of any list number exactly `length / 2`: the odd
trailing chunk, when present, is removed by the `chunk.len() == 2` guard. -/
theorem pairChunks_length {α : Type} (l : List α) :
    (pairChunks l).length = l.length / 2 := by
  induction l using twoStepInduction with
  | h0 => simp [pairChunks, chunksTwo]
  | h1 a => simp [pairChunks, chunksTwo]
  | h2 a b l ih =>
    rw [pairChunks_cons2]
    simp only [List.length_cons]
    omega

/-- The number of parse successes in a `filterMap` equals the count of
elements on which the partial function succeeds. -/
theorem length_filterMap_eq_countP {α β : Type} (f : α → Option β) :
    ∀ l : List α, (l.filterMap f).length = l.countP (fun a => (f a).isSome) := by
  intro l
  induction l with
  | nil => rfl
  | cons a l ih =>
    rw [List.filterMap_cons, List.countP_cons]
    cases h : f a <;> simp [h, ih]

/-- `filterMap` is the order-preserving squeeze of the optionally-mapped
list. -/
theorem filterMap_eq_reduceOption_map {α β : Type} (f : α → Option β) (l : List α) :
    l.filterMap f = (l.map f).reduceOption := by
  induction l with
  | nil => rfl
  | cons a l ih =>
    cases h : f a <;> simp [List.reduceOption, List.filterMap_cons, h, ← ih]

/-- The extractor loop never looks past an `Err(_)` event: everything after
the first error token is ignored. -/
theorem extractRun_stops_at_err {F : Type} (P : String → Option F)
    (T : F → F → Option (F × F)) :
    ∀ (pre : List XmlEvent) (s : ExtractState F) (post : List XmlEvent),
      extractRun P T s (pre ++ XmlEvent.err :: post) = extractRun P T s pre := by
  intro pre
  induction pre with
  | nil => intro s post; rfl
  | cons ev rest ih =>
    intro s post
    cases ev <;> simp only [List.cons_append, extractRun] <;> apply ih

/-- `strEndsWith` in terms of list suffixes. -/
theorem strEndsWith_iff {s t : String} : strEndsWith s t = true ↔ t.data <:+ s.data := by
  simp [strEndsWith, List.isSuffixOf_iff_suffix]

/-- Two suffix patterns that are not suffixes of one another can never both
match the same name. -/
theorem strEndsWith_disjoint {a b : String} (hab : ¬a.data <:+ b.data)
    (hba : ¬b.data <:+ a.data) {n : String} (h : strEndsWith n a = true) :
    strEndsWith n b = false := by
  rw [strEndsWith_iff] at h
  by_contra hb
  rw [Bool.not_eq_false, strEndsWith_iff] at hb
  rcases List.suffix_or_suffix_of_suffix h hb with h1 | h1
  · exact hab h1
  · exact hba h1

/-- A posList name falls through the three attribute branches of the
`if`/`else if` dispatch. -/
theorem posListName_excl {name : String} (h : isPosListName name = true) :
    isStringAttrName name = false ∧ isIntAttrName name = false
      ∧ isDoubleAttrName name = false :=
  ⟨strEndsWith_disjoint (by decide) (by decide) h,
   strEndsWith_disjoint (by decide) (by decide) h,
   strEndsWith_disjoint (by decide) (by decide) h⟩

/-- An intAttribute name falls through the stringAttribute branch. -/
theorem intAttrName_excl {name : String} (h : isIntAttrName name = true) :
    isStringAttrName name = false :=
  strEndsWith_disjoint (by decide) (by decide) h

/-- A doubleAttribute name falls through the stringAttribute and intAttribute
branches. -/
theorem doubleAttrName_excl {name : String} (h : isDoubleAttrName name = true) :
    isStringAttrName name = false ∧ isIntAttrName name = false :=
  ⟨strEndsWith_disjoint (by decide) (by decide) h,
   strEndsWith_disjoint (by decide) (by decide) h⟩

/-- Looking up the key just inserted returns the inserted value. -/
theorem getProp_insertProp_self {F : Type} (props : List (String × PropertyValue F))
    (k : String) (v : PropertyValue F) : getProp (insertProp props k v) k = some v := by
  simp [getProp, insertProp, List.find?]

/-- Appending the suffix pattern to any prefix yields a matching name. -/
theorem strEndsWith_append (p t : String) : strEndsWith (p ++ t) t = true := by
  rw [strEndsWith_iff, String.data_append]
  exact List.suffix_append p.data t.data

/-- Emission from two states that agree on everything but write bodies, under
two hash-iteration orders, yields states that again so agree: the order
oracle can only influence the serialized bytes. -/
theorem emitFragment_hashOrder {F : Type} (ctx : SegCtx F)
    (σ1 σ2 : List (String × PropertyValue F) → List (String × PropertyValue F))
    (s1 s2 : SegState) (frag : String) (h : SegAgree s1 s2) :
    SegAgree (emitFragment { ctx with hashOrder := σ1 } s1 frag)
      (emitFragment { ctx with hashOrder := σ2 } s2 frag) := by
  obtain ⟨h1, h2, h3, h4, h5⟩ := h
  unfold emitFragment parse_city_object
  cases hg : getProp (extractFeature ctx.parseF64 ctx.transform (ctx.tokenize frag)).properties
      ctx.id_field with
  | none => simpa [hg] using ⟨h1, h2, h3, h4, h5⟩
  | some id =>
    simp only [hg]
    exact ⟨h1, h2, h3, by simp [h4], by simp [h5, h4]⟩

/-- One segmenter step preserves `SegAgree` across hash-iteration orders. -/
theorem segStep_hashOrder {F : Type} (ctx : SegCtx F)
    (σ1 σ2 : List (String × PropertyValue F) → List (String × PropertyValue F))
    (s1 s2 : SegState) (ev : XmlEvent) (h : SegAgree s1 s2) :
    SegAgree (segStep { ctx with hashOrder := σ1 } s1 ev)
      (segStep { ctx with hashOrder := σ2 } s2 ev) := by
  obtain ⟨h1, h2, h3, h4, h5⟩ := h
  cases ev with
  | start name attrs =>
    simp only [segStep]
    rw [h1, h2, h3]
    by_cases hc : isCityObjectName name = true
    · rw [if_pos hc, if_pos hc]
      exact ⟨rfl, rfl, rfl, h4, h5⟩
    · rw [if_neg hc, if_neg hc]
      by_cases hin : s2.in_city_object = true
      · rw [if_pos hin, if_pos hin]
        exact ⟨rfl, rfl, rfl, h4, h5⟩
      · rw [if_neg hin, if_neg hin]
        exact ⟨h1, h2, h3, h4, h5⟩
  | endEl name =>
    simp only [segStep]
    rw [h1, h2, h3]
    by_cases hin : s2.in_city_object = true
    · rw [if_pos hin, if_pos hin]
      by_cases hd : s2.object_depth - 1 = 0
      · rw [if_pos hd, if_pos hd]
        have hagree : SegAgree
            { in_city_object := s2.in_city_object,
              current_object := s2.current_object ++ endTagString name,
              object_depth := s2.object_depth - 1, count := s1.count,
              written := s1.written }
            { in_city_object := s2.in_city_object,
              current_object := s2.current_object ++ endTagString name,
              object_depth := s2.object_depth - 1, count := s2.count,
              written := s2.written } := ⟨rfl, rfl, rfl, h4, h5⟩
        obtain ⟨e1, e2, e3, e4, e5⟩ :=
          emitFragment_hashOrder ctx σ1 σ2 _ _ (s2.current_object ++ endTagString name) hagree
        exact ⟨rfl, e2, e3, e4, e5⟩
      · rw [if_neg hd, if_neg hd]
        exact ⟨rfl, rfl, rfl, h4, h5⟩
    · rw [if_neg hin, if_neg hin]
      exact ⟨h1, h2, h3, h4, h5⟩
  | text t =>
    simp only [segStep]
    rw [h1, h2]
    by_cases hin : s2.in_city_object = true
    · rw [if_pos hin, if_pos hin]
      exact ⟨rfl, rfl, h3, h4, h5⟩
    · rw [if_neg hin, if_neg hin]
      exact ⟨h1, h2, h3, h4, h5⟩
  | empty name attrs => exact ⟨h1, h2, h3, h4, h5⟩
  | eof => exact ⟨h1, h2, h3, h4, h5⟩
  | err => exact ⟨h1, h2, h3, h4, h5⟩

/-- The whole segmenter run preserves `SegAgree` across hash-iteration
orders. -/
theorem segRun_hashOrder {F : Type} (ctx : SegCtx F)
    (σ1 σ2 : List (String × PropertyValue F) → List (String × PropertyValue F)) :
    ∀ (events : List XmlEvent) (s1 s2 : SegState), SegAgree s1 s2 →
      SegAgree (segRun { ctx with hashOrder := σ1 } s1 events)
        (segRun { ctx with hashOrder := σ2 } s2 events) := by
  intro events
  induction events with
  | nil => exact fun s1 s2 h => h
  | cons ev rest ih =>
    intro s1 s2 h
    cases ev with
    | eof => exact h
    | err => exact h
    | start name attrs => exact ih _ _ (segStep_hashOrder ctx σ1 σ2 s1 s2 _ h)
    | endEl name => exact ih _ _ (segStep_hashOrder ctx σ1 σ2 s1 s2 _ h)
    | text t => exact ih _ _ (segStep_hashOrder ctx σ1 σ2 s1 s2 _ h)
    | empty name attrs => exact ih _ _ (segStep_hashOrder ctx σ1 σ2 s1 s2 _ h)

/-- Every member of `posListCoords` is the successful transform of one full
chunk of the numeric token list. -/
theorem mem_posListCoords {F : Type} {P : String → Option F}
    {T : F → F → Option (F × F)} {str : String} {c : List F}
    (h : c ∈ posListCoords P T str) :
    ∃ x y p q, [x, y] ∈ pairChunks (posTokens P str) ∧ T x y = some (p, q)
      ∧ c = [p, q] := by
  rw [posListCoords, List.mem_filterMap] at h
  obtain ⟨chunk, hmem, hc⟩ := h
  have hlen : chunk.length = 2 := by
    have h2 := (List.mem_filter.mp hmem).2
    simpa using h2
  obtain ⟨x, y, rfl⟩ : ∃ x y, chunk = [x, y] := by
    match chunk, hlen with
    | [x, y], _ => exact ⟨x, y, rfl⟩
  simp only [transformChunk] at hc
  cases hT : T x y with
  | none => rw [hT] at hc; simp at hc
  | some pq =>
    rw [hT] at hc
    simp only [Option.map_some'] at hc
    exact ⟨x, y, pq.1, pq.2, hmem, by rw [hT], (Option.some.inj hc).symm⟩

/-- One extractor step either leaves the coordinate list unchanged or appends
the transformed pairs of the accumulated posList text. -/
theorem extractStep_coordinates {F : Type} (P : String → Option F)
    (T : F → F → Option (F × F)) (s : ExtractState F) (ev : XmlEvent) :
    (extractStep P T s ev).coordinates = s.coordinates
    ∨ (extractStep P T s ev).coordinates
        = s.coordinates ++ posListCoords P T s.current_value := by
  cases ev with
  | start name attrs =>
    left; simp only [extractStep]; split_ifs <;> rfl
  | endEl name =>
    simp only [extractStep]
    split_ifs with h1 h2 h3 h4
    · left; rfl
    · left; cases h : parseI64 s.current_value <;> rfl
    · left; cases h : P s.current_value <;> rfl
    · right; rfl
    · left; rfl
  | text t => left; simp only [extractStep]; split_ifs <;> rfl
  | empty name attrs => left; rfl
  | eof => left; rfl
  | err => left; rfl

/-- One extractor step preserves the coordinate provenance invariant. -/
theorem extractStep_coordFrom {F : Type} (P : String → Option F)
    (T : F → F → Option (F × F)) (s : ExtractState F) (ev : XmlEvent)
    (h : ∀ c ∈ s.coordinates, coordFrom P T c) :
    ∀ c ∈ (extractStep P T s ev).coordinates, coordFrom P T c := by
  intro c hc
  rcases extractStep_coordinates P T s ev with he | he
  · rw [he] at hc; exact h c hc
  · rw [he] at hc
    rcases List.mem_append.mp hc with hc | hc
    · exact h c hc
    · obtain ⟨x, y, p, q, h1, h2, h3⟩ := mem_posListCoords hc
      exact ⟨s.current_value, x, y, p, q, h1, h2, h3⟩

/-- The extractor run preserves the coordinate provenance invariant. -/
theorem extractRun_coordFrom {F : Type} (P : String → Option F)
    (T : F → F → Option (F × F)) :
    ∀ (events : List XmlEvent) (s : ExtractState F),
      (∀ c ∈ s.coordinates, coordFrom P T c) →
      ∀ c ∈ (extractRun P T s events).coordinates, coordFrom P T c := by
  intro events
  induction events with
  | nil => exact fun s h => h
  | cons ev rest ih =>
    intro s h
    cases ev with
    | eof => exact h
    | err => exact h
    | start name attrs => exact ih _ (extractStep_coordFrom P T s _ h)
    | endEl name => exact ih _ (extractStep_coordFrom P T s _ h)
    | text t => exact ih _ (extractStep_coordFrom P T s _ h)
    | empty name attrs => exact ih _ (extractStep_coordFrom P T s _ h)

/-! Claim theorems. -/

/-- C1, counterexample.  The claim says that a `*:GenericCityObject` start
tag arriving while a capture is already open does not start a new capture and
only increments the depth counter.  On the code, the matching branch of the
Start arm (src/main.rs lines 91-105) is taken regardless of
`in_city_object`: after the nested start tag of `nestedDoc` the depth is
reset to 1 (an ordinary descendant would make it 2) and the accumulator is
reset to the nested start tag alone, so the outer object's markup is
discarded; the capture then ends at the first end tag, before the outer
element closes. -/
theorem c1_counterexample :
    (segStep ctx0 (segStep ctx0 initSegState (XmlEvent.start "gen:GenericCityObject" []))
        (XmlEvent.start "gen:GenericCityObject" [])).object_depth = 1
    ∧ (segStep ctx0 (segStep ctx0 initSegState (XmlEvent.start "gen:GenericCityObject" []))
        (XmlEvent.start "gen:GenericCityObject" [])).current_object
        = "<gen:GenericCityObject>"
    ∧ (segRun ctx0 initSegState
        [XmlEvent.start "gen:GenericCityObject" [],
         XmlEvent.start "gen:GenericCityObject" [],
         XmlEvent.endEl "gen:GenericCityObject"]).in_city_object = false
    ∧ (segRun ctx0 initSegState
        [XmlEvent.start "gen:GenericCityObject" [],
         XmlEvent.start "gen:GenericCityObject" [],
         XmlEvent.endEl "gen:GenericCityObject"]).current_object
        = "<gen:GenericCityObject></gen:GenericCityObject>" := by
  decide

/-- C1, amended.  When an element whose name ends with the target suffix
starts while a target object capture is already open, the segmenter restarts
the capture at that element: the depth counter is reset to 1 (not
incremented) and the accumulator is reset to the reconstructed start tag of
the nested element, abandoning the outer object's accumulated markup. -/
theorem c1_theorem {F : Type} (ctx : SegCtx F) (s : SegState) (name : String)
    (attrs : List (String × String)) (hin : s.in_city_object = true)
    (hname : isCityObjectName name = true) :
    segStep ctx s (XmlEvent.start name attrs)
      = { s with in_city_object := true, object_depth := 1,
                 current_object := startTagString name attrs } := by
  simp [segStep, hname]

/-- C1, witness for the amended theorem at a concrete open-capture state. -/
theorem c1_witness :
    segS0.in_city_object = true
    ∧ isCityObjectName "gen:GenericCityObject" = true
    ∧ segStep ctx0 segS0 (XmlEvent.start "gen:GenericCityObject" [])
        = { segS0 with in_city_object := true, object_depth := 1,
                       current_object := startTagString "gen:GenericCityObject" [] } :=
  ⟨by decide, by decide,
   c1_theorem ctx0 segS0 "gen:GenericCityObject" [] (by decide) (by decide)⟩

/-- C2, counterexample.  The claim says a fragment whose inner XML is
truncated or invalid yields a Feature with empty properties and empty
coordinates.  On the code, scanning stops at the parse failure but keeps
everything already harvested: `truncatedFragment` ends in a tokenizer error
yet its Feature carries the `ROUTE_ID` property completed before the
failure. -/
theorem c2_counterexample :
    (extractFeature numParse idTransform truncatedFragment).properties
      = [("ROUTE_ID", PropertyValue.String "R1")]
    ∧ truncatedFragment.getLast? = some XmlEvent.err := by
  decide

/-- C2, amended.  `parse_city_object` never returns an error: every input
yields `Ok`.  On an internal XML parse failure it stops scanning at the
failure point and still yields a Feature carrying exactly the properties and
coordinates accumulated before the failure; a fragment that fails before
anything was parsed yields empty properties and empty coordinates. -/
theorem c2_theorem {F : Type} (P : String → Option F) (T : F → F → Option (F × F))
    (events : List XmlEvent) (id_field : String) :
    parse_city_object P T events id_field = Except.ok (extractFeature P T events)
    ∧ (∀ pre post, events = pre ++ XmlEvent.err :: post →
        extractFeature P T events = extractFeature P T pre)
    ∧ (∀ rest, extractFeature P T (XmlEvent.err :: rest)
        = { feature_type := "Feature",
            geometry := { geometry_type := "LineString", coordinates := [] },
            properties := [] }) := by
  refine ⟨rfl, ?_, fun rest => rfl⟩
  rintro pre post rfl
  unfold extractFeature
  rw [extractRun_stops_at_err]

/-- C2, witness: the amended theorem applied to the concrete truncated
fragment. -/
theorem c2_witness :
    extractFeature numParse idTransform truncatedFragment
      = extractFeature numParse idTransform
          [XmlEvent.start "gen:stringAttribute" [("name", "ROUTE_ID")],
           XmlEvent.text "R1", XmlEvent.endEl "gen:stringAttribute"] :=
  (c2_theorem numParse idTransform truncatedFragment "ROUTE_ID").2.1
    [XmlEvent.start "gen:stringAttribute" [("name", "ROUTE_ID")],
     XmlEvent.text "R1", XmlEvent.endEl "gen:stringAttribute"] [] rfl

/-- C3: non-numeric whitespace-separated tokens are filtered out of the flat
token list first (`posTokens` is literally split-then-filterMap), pairing
proceeds on the remaining tokens in order, and a position list with `N`
numeric tokens, `N` even, submits exactly `N / 2` pairs to the projection;
the end-of-posList step appends exactly the transformed pairs of the
accumulated inner text. -/
theorem c3_theorem {F : Type} (P : String → Option F) (T : F → F → Option (F × F))
    (s : ExtractState F) (name str : String) (N : ℕ)
    (hname : isPosListName name = true)
    (hN : (splitWhitespace str).countP (fun t => (P t).isSome) = N)
    (hEven : Even N) :
    posTokens P str = (splitWhitespace str).filterMap P
    ∧ (pairChunks (posTokens P str)).length = N / 2
    ∧ (extractStep P T { s with current_value := str } (XmlEvent.endEl name)).coordinates
        = s.coordinates ++ posListCoords P T str := by
  obtain ⟨hs, hi, hd⟩ := posListName_excl hname
  refine ⟨rfl, ?_, ?_⟩
  · rw [← hN, posTokens, pairChunks_length, length_filterMap_eq_countP]
  · simp [extractStep, hs, hi, hd, hname]

/-- C4: every coordinate pair of an extracted feature is the successful
transform of one full chunk of some position list's numeric tokens (never a
default, never an untransformed pair), and satisfies any predicate — such as
finiteness — that the transform's successes satisfy; the output is the
order-preserving squeeze of the optionally-transformed chunk list; and a
single failed transform drops exactly that pair while the remaining chunks
are still processed. -/
theorem c4_theorem {F : Type} (P : String → Option F) (T : F → F → Option (F × F))
    (Good : F → Prop) (hT : ∀ x y p q, T x y = some (p, q) → Good p ∧ Good q)
    (events : List XmlEvent) :
    (∀ c ∈ (extractFeature P T events).geometry.coordinates,
       ∃ str x y p q, [x, y] ∈ pairChunks (posTokens P str)
         ∧ T x y = some (p, q) ∧ c = [p, q] ∧ Good p ∧ Good q)
    ∧ (∀ str, posListCoords P T str
        = ((pairChunks (posTokens P str)).map (transformChunk T)).reduceOption)
    ∧ (∀ (x y : F) (rest : List (List F)), T x y = none →
        ([x, y] :: rest).filterMap (transformChunk T)
          = rest.filterMap (transformChunk T)) := by
  refine ⟨?_, ?_, ?_⟩
  · intro c hc
    have hinv := extractRun_coordFrom P T events initExtractState
      (by intro c h; simp [initExtractState] at h) c hc
    obtain ⟨str, x, y, p, q, h1, h2, h3⟩ := hinv
    obtain ⟨hp, hq⟩ := hT x y p q h2
    exact ⟨str, x, y, p, q, h1, h2, h3, hp, hq⟩
  · intro str
    rw [posListCoords, filterMap_eq_reduceOption_map]
  · intro x y rest h
    rw [List.filterMap_cons]
    simp [transformChunk, h]

/-- C4, witness: the order-preserving squeeze equation at a concrete
position list under a transform that fails on non-positive eastings. -/
theorem c4_witness :
    posListCoords numParse posTransform " 1 2 0 5 "
      = ((pairChunks (posTokens numParse " 1 2 0 5 ")).map
          (transformChunk posTransform)).reduceOption :=
  (c4_theorem numParse posTransform (fun _ => True)
    (fun x y p q h => ⟨trivial, trivial⟩) []).2.1 " 1 2 0 5 "

/-- C5: a file write is recorded if and only if the extracted feature's
property mapping contains the configured identifier field; when the field is
absent the emitter leaves the state untouched — no write, no error, no
counter change — and the run continues. -/
theorem c5_theorem {F : Type} (ctx : SegCtx F) (s : SegState) (frag : String) :
    ((getProp (extractFeature ctx.parseF64 ctx.transform (ctx.tokenize frag)).properties
        ctx.id_field).isSome
      ↔ ∃ e, (emitFragment ctx s frag).written = s.written ++ [e])
    ∧ (getProp (extractFeature ctx.parseF64 ctx.transform (ctx.tokenize frag)).properties
        ctx.id_field = none → emitFragment ctx s frag = s) := by
  constructor
  · constructor
    · intro h
      rw [Option.isSome_iff_exists] at h
      obtain ⟨id, hid⟩ := h
      refine ⟨("./output/" ++ ctx.output_subdir ++ "/" ++ idString id s.count ++ ".json",
          featureJson ctx.showF
            (ctx.hashOrder
              (extractFeature ctx.parseF64 ctx.transform (ctx.tokenize frag)).properties)
            (extractFeature ctx.parseF64 ctx.transform (ctx.tokenize frag))), ?_⟩
      simp [emitFragment, parse_city_object, hid]
    · rintro ⟨e, he⟩
      by_contra hnone
      rw [Option.not_isSome_iff_eq_none] at hnone
      have hs : emitFragment ctx s frag = s := by
        simp [emitFragment, parse_city_object, hnone]
      rw [hs] at he
      have hlen := congrArg List.length he
      simp at hlen
  · intro hnone
    simp [emitFragment, parse_city_object, hnone]

/-- C5, witness: a fragment without the identifier field is dropped with no
state change. -/
theorem c5_witness : emitFragment ctx0 initSegState "frag" = initSegState :=
  (c5_theorem ctx0 initSegState "frag").2 rfl

/-- C6, counterexample.  The claim says the mapping contains an entry under
an int attribute's name key only if its inner text parses.  On the code, an
earlier attribute element with the same name key may already have inserted
an entry: in `dupKeyFragment` the int attribute's text `oops` fails to
parse, yet the mapping still contains the key `A` (the string attribute's
entry). -/
theorem c6_counterexample :
    parseI64 "oops" = none
    ∧ (getProp (extractFeature numParse idTransform dupKeyFragment).properties "A").isSome
        = true := by
  decide

/-- C6, amended.  The closing tag of an int (resp. double) attribute inserts
an entry under the element's name key exactly when its accumulated inner
text parses; on parse failure the property mapping is left entirely
unchanged — no null, no zero — so the key is absent unless a different
attribute element already inserted an entry under the same key. -/
theorem c6_theorem {F : Type} (P : String → Option F) (T : F → F → Option (F × F))
    (s : ExtractState F) (nameI nameD : String)
    (hI : isIntAttrName nameI = true) (hD : isDoubleAttrName nameD = true) :
    (∀ v, parseI64 s.current_value = some v →
       (extractStep P T s (XmlEvent.endEl nameI)).properties
         = insertProp s.properties s.current_attr_name (PropertyValue.Int v)
       ∧ getProp (extractStep P T s (XmlEvent.endEl nameI)).properties s.current_attr_name
           = some (PropertyValue.Int v))
    ∧ (parseI64 s.current_value = none →
       (extractStep P T s (XmlEvent.endEl nameI)).properties = s.properties)
    ∧ (∀ v, P s.current_value = some v →
       (extractStep P T s (XmlEvent.endEl nameD)).properties
         = insertProp s.properties s.current_attr_name (PropertyValue.Float v)
       ∧ getProp (extractStep P T s (XmlEvent.endEl nameD)).properties s.current_attr_name
           = some (PropertyValue.Float v))
    ∧ (P s.current_value = none →
       (extractStep P T s (XmlEvent.endEl nameD)).properties = s.properties) := by
  have hs := intAttrName_excl hI
  obtain ⟨hds, hdi⟩ := doubleAttrName_excl hD
  refine ⟨?_, ?_, ?_, ?_⟩
  · intro v hv
    refine ⟨by simp [extractStep, hs, hI, hv], ?_⟩
    simp [extractStep, hs, hI, hv, getProp_insertProp_self]
  · intro hv
    simp [extractStep, hs, hI, hv]
  · intro v hv
    refine ⟨by simp [extractStep, hds, hdi, hD, hv], ?_⟩
    simp [extractStep, hds, hdi, hD, hv, getProp_insertProp_self]
  · intro hv
    simp [extractStep, hds, hdi, hD, hv]

/-- C6, witness: a successful parse of `12` inserts the integer entry. -/
theorem c6_witness :
    (extractStep numParse idTransform st0 (XmlEvent.endEl "g:intAttribute")).properties
      = insertProp st0.properties st0.current_attr_name (PropertyValue.Int 12)
    ∧ getProp (extractStep numParse idTransform st0 (XmlEvent.endEl "g:intAttribute")).properties
        st0.current_attr_name = some (PropertyValue.Int 12) :=
  (c6_theorem numParse idTransform st0 "g:intAttribute" "g:doubleAttribute"
    (by decide) (by decide)).1 12 (by decide)

/-- C3, witness: the token list `1 2 x 3 4` has four numeric tokens and one
junk token; exactly two pairs are submitted. -/
theorem c3_witness :
    posTokens numParse " 1 2 x 3 4 " = (splitWhitespace " 1 2 x 3 4 ").filterMap numParse
    ∧ (pairChunks (posTokens numParse " 1 2 x 3 4 ")).length = 4 / 2
    ∧ (extractStep numParse idTransform
          { initExtractState with current_value := " 1 2 x 3 4 " }
          (XmlEvent.endEl "gml:posList")).coordinates
        = initExtractState.coordinates ++ posListCoords numParse idTransform " 1 2 x 3 4 " :=
  c3_theorem numParse idTransform initExtractState "gml:posList" " 1 2 x 3 4 " 4
    (by decide) (by decide) (by decide)

/-- C7, counterexample.  The claim says recognition does not depend on which
— or whether a — namespace prefix precedes the local name.  On the code, the
matchers test for the suffix `":<kind>"` including the colon, so an element
whose qualified name is the bare local name (no prefix, no colon) is not
recognized, while the same local name with any prefix is. -/
theorem c7_counterexample :
    isStringAttrName "gen:stringAttribute" = true
    ∧ isStringAttrName "stringAttribute" = false
    ∧ isCityObjectName "bldg:GenericCityObject" = true
    ∧ isCityObjectName "GenericCityObject" = false := by
  decide

/-- C7, amended.  Recognition of the four element kinds and of the target
generic-city-object element is by the suffix `":<local name>"`: it is
independent of which namespace prefix precedes the colon (any prefix string,
including the empty one, matches), but an unprefixed element — whose
qualified name has no colon at all — is not recognized. -/
theorem c7_theorem (p : String) :
    isStringAttrName (p ++ ":stringAttribute") = true
    ∧ isIntAttrName (p ++ ":intAttribute") = true
    ∧ isDoubleAttrName (p ++ ":doubleAttribute") = true
    ∧ isPosListName (p ++ ":posList") = true
    ∧ isCityObjectName (p ++ ":GenericCityObject") = true
    ∧ isStringAttrName "stringAttribute" = false
    ∧ isIntAttrName "intAttribute" = false
    ∧ isDoubleAttrName "doubleAttribute" = false
    ∧ isPosListName "posList" = false
    ∧ isCityObjectName "GenericCityObject" = false :=
  ⟨strEndsWith_append p ":stringAttribute", strEndsWith_append p ":intAttribute",
   strEndsWith_append p ":doubleAttribute", strEndsWith_append p ":posList",
   strEndsWith_append p ":GenericCityObject", by decide, by decide, by decide,
   by decide, by decide⟩

/-- C8, counterexample.  The claim says the serialized content of each
emitted file is a deterministic function of the input document alone with no
nondeterministic property ordering.  On the code, the `properties` map is a
std `HashMap`, whose iteration order Rust does not specify and which varies
between processes; the model exposes that order as an oracle, and two runs
on the same input under two orders — both permutations of the same bindings
— produce different file bytes. -/
theorem c8_counterexample :
    List.Perm
      (ctxB.hashOrder (extractFeature numParse idTransform twoPropFragment).properties)
      (ctxA.hashOrder (extractFeature numParse idTransform twoPropFragment).properties)
    ∧ (parse_gml_file ctxA outerDoc).toOption ≠ (parse_gml_file ctxB outerDoc).toOption := by
  decide

/-- C8, amended.  Two runs on identical input are deterministic in
everything except each file's property serialization order: whatever
iteration orders the hash map presents, the runs record the same file paths
in the same order and the same feature count (and there are no timestamps);
byte-identity of the file bodies holds only when the iteration orders
coincide. -/
theorem c8_theorem {F : Type} (ctx : SegCtx F)
    (s1 s2 : List (String × PropertyValue F) → List (String × PropertyValue F))
    (events : List XmlEvent) :
    ((segRun { ctx with hashOrder := s1 } initSegState events).written).map Prod.fst
      = ((segRun { ctx with hashOrder := s2 } initSegState events).written).map Prod.fst
    ∧ (segRun { ctx with hashOrder := s1 } initSegState events).count
      = (segRun { ctx with hashOrder := s2 } initSegState events).count := by
  have h := segRun_hashOrder ctx s1 s2 events initSegState initSegState
    ⟨rfl, rfl, rfl, rfl, rfl⟩
  exact ⟨h.2.2.2.2, h.2.2.2.1⟩

/-- C9: when the extracted feature carries the identifier field, exactly one
file write is recorded, whose name is derived from the identifier value:
a text value is used as-is, an integer value is rendered in decimal, and any
other value kind yields the synthetic `object_<counter>` name built from the
running feature counter. -/
theorem c9_theorem {F : Type} (ctx : SegCtx F) (s : SegState) (frag : String)
    (id : PropertyValue F)
    (hid : getProp (extractFeature ctx.parseF64 ctx.transform (ctx.tokenize frag)).properties
        ctx.id_field = some id) :
    (emitFragment ctx s frag).written
      = s.written
        ++ [("./output/" ++ ctx.output_subdir ++ "/" ++ idString id s.count ++ ".json",
             featureJson ctx.showF
               (ctx.hashOrder
                 (extractFeature ctx.parseF64 ctx.transform (ctx.tokenize frag)).properties)
               (extractFeature ctx.parseF64 ctx.transform (ctx.tokenize frag)))]
    ∧ (∀ str, idString (PropertyValue.String str : PropertyValue F) s.count = str)
    ∧ (∀ i : Int, idString (PropertyValue.Int i : PropertyValue F) s.count = toString i)
    ∧ (∀ f : F, idString (PropertyValue.Float f) s.count = "object_" ++ toString s.count)
    ∧ idString (PropertyValue.Null : PropertyValue F) s.count
        = "object_" ++ toString s.count := by
  refine ⟨?_, fun str => rfl, fun i => rfl, fun f => rfl, rfl⟩
  simp [emitFragment, parse_city_object, hid]

/-- C9, witness: emission of the truncated fragment's feature, whose
identifier is the text value `R1`, records one write under that name. -/
theorem c9_witness :
    (emitFragment ctxC initSegState "f").written
      = initSegState.written
        ++ [("./output/" ++ ctxC.output_subdir ++ "/"
               ++ idString (PropertyValue.String "R1" : PropertyValue Int) initSegState.count
               ++ ".json",
             featureJson ctxC.showF
               (ctxC.hashOrder
                 (extractFeature ctxC.parseF64 ctxC.transform (ctxC.tokenize "f")).properties)
               (extractFeature ctxC.parseF64 ctxC.transform (ctxC.tokenize "f")))] :=
  (c9_theorem ctxC initSegState "f" (PropertyValue.String "R1") (by decide)).1

/-- C10: when the filtered numeric token list has odd length, the final
unpaired token is silently discarded: the pair chunks are exactly those of
the list without its last element, their number is the floor of half the
length, and their concatenation is the list without its last element; and
the end-of-posList step clears the shared text accumulator, so a later
position list can never see an earlier list's tokens. -/
theorem c10_theorem {F : Type} (P : String → Option F) (T : F → F → Option (F × F)) :
    (∀ l : List F, Odd l.length →
       pairChunks l = pairChunks l.dropLast
       ∧ (pairChunks l).length = l.length / 2
       ∧ (pairChunks l).flatten = l.dropLast)
    ∧ (∀ (s : ExtractState F) (name : String), isPosListName name = true →
       (extractStep P T s (XmlEvent.endEl name)).current_value = "") := by
  constructor
  · intro l
    induction l using twoStepInduction with
    | h0 => intro h; simp at h
    | h1 a =>
      intro h
      refine ⟨by simp [pairChunks, chunksTwo], by simp [pairChunks, chunksTwo], ?_⟩
      simp [pairChunks, chunksTwo]
    | h2 a b l ih =>
      intro h
      have hodd : Odd l.length := by
        simp only [List.length_cons] at h
        rcases h with ⟨k, hk⟩
        exact ⟨k - 1, by omega⟩
      have hl : l ≠ [] := by
        intro hnil
        rw [hnil] at hodd
        simp at hodd
      obtain ⟨ih1, ih2, ih3⟩ := ih hodd
      have hdrop : (a :: b :: l).dropLast = a :: b :: l.dropLast := by
        rw [List.dropLast_cons_of_ne_nil (by simp), List.dropLast_cons_of_ne_nil hl]
      refine ⟨?_, ?_, ?_⟩
      · rw [pairChunks_cons2, hdrop, pairChunks_cons2, ih1]
      · rw [pairChunks_cons2]
        simp only [List.length_cons]
        omega
      · rw [pairChunks_cons2, List.flatten_cons, ih3, hdrop]
        rfl
  · intro s name hname
    obtain ⟨hs, hi, hd⟩ := posListName_excl hname
    simp [extractStep, hs, hi, hd, hname]

/-- C10, witness: a three-token list keeps exactly one pair, discarding the
trailing token, and a posList end tag clears the accumulator. -/
theorem c10_witness :
    (pairChunks [(1 : Int), 2, 3] = pairChunks (List.dropLast [(1 : Int), 2, 3])
      ∧ (pairChunks [(1 : Int), 2, 3]).length = 3 / 2
      ∧ (pairChunks [(1 : Int), 2, 3]).flatten = List.dropLast [(1 : Int), 2, 3])
    ∧ (extractStep numParse idTransform
        { initExtractState with in_pos_list := true, current_value := "1 2 3" }
        (XmlEvent.endEl "gml:posList")).current_value = "" :=
  ⟨(c10_theorem numParse idTransform).1 [(1 : Int), 2, 3] (by decide),
   (c10_theorem numParse idTransform).2
     { initExtractState with in_pos_list := true, current_value := "1 2 3" }
     "gml:posList" (by decide)⟩

end RoadNetwork
